import Mathlib

/-!
Verification of the agent-orchestrator core of the
`autonomous-coding-dashboard` repository.

This file is a shallow embedding, in Lean 4, of the code in
`backend/services/agent_orchestrator.py` and `backend/services/real_agent.py`:

* the feature-ledger progress readers `AgentHarness.get_progress` and
  `RealAgentHarness.get_progress` (including their exception handling,
  modelled in the `Option` monad: `none` stands for a raised Python
  exception that is caught by the surrounding `except` clause);
* the event model (`AgentEvent` with its per-run step counter assigned by
  `emit`), the simulated sessions, and the two session loops
  `AgentHarness.run_coding_loop` and `RealAgentHarness.run` (modelled with
  explicit fuel, since the Python loops are unbounded `while True` loops);
* the Redis-backed job table (`JobQueue.enqueue` / `get_job` and the
  `start_agent_run` route) and the per-run history list
  (`EventPublisher.publish` via `lpush`, and the `get_run_events` route);
* the exception wrapper of `AgentHarness.run` and the terminal job-status
  write performed by `run_worker`.

The external world (the feature ledger file mutated by the execution
engine, and the engine itself) is modelled as oracles: a function
`Nat → Progress` giving the snapshot returned by the k-th ledger read, and
a function `Nat → EngineOutcome` giving the engine result for each session.
-/

namespace ACD

/-! ## JSON values, as produced by Python `json.load`

JSON numbers are modelled as integers (the ledger files only carry integer
counts).  Python dictionaries keep the last of duplicate keys, hence the
lookup on the reversed field list. -/

inductive JsonVal where
  | jnull
  | jbool (b : Bool)
  | jnum (n : Int)
  | jstr (s : String)
  | jarr (elems : List JsonVal)
  | jobj (fields : List (String × JsonVal))

/-- `d.get(key)` on a parsed JSON object (last duplicate key wins, as in
Python's `json` module). -/
def objGet (fields : List (String × JsonVal)) (key : String) : Option JsonVal :=
  (fields.reverse.find? (fun kv => kv.1 == key)).map Prod.snd

/-- Python truthiness of a JSON value (used by `f.get("passes", False)`
appearing in a boolean position). -/
def truthy : JsonVal → Bool
  | .jnull => false
  | .jbool b => b
  | .jnum n => n != 0
  | .jstr s => s != ""
  | .jarr xs => !xs.isEmpty
  | .jobj fs => !fs.isEmpty

/-- A value usable as an operand of Python integer subtraction
(`int` or `bool`; anything else raises `TypeError`, i.e. `none`). -/
def asIntLike : JsonVal → Option Int
  | .jnum n => some n
  | .jbool b => some (if b then 1 else 0)
  | _ => none

/-- `f.get("passes", False)` for one element of the feature list: raises
(`none`) unless the element is a dict. -/
def featurePasses : JsonVal → Option Bool
  | .jobj fs => some (truthy ((objGet fs "passes").getD (.jbool false)))
  | _ => none

/-- `sum(1 for f in features if f.get("passes", False))`; `none` when some
element makes `f.get` raise. -/
def countPassing : List JsonVal → Option Nat
  | [] => some 0
  | x :: rest => do
    let b ← featurePasses x
    let n ← countPassing rest
    pure (if b then n + 1 else n)

/-- The progress snapshot `{"total": _, "passing": _, "pending": _}`. -/
structure Progress where
  total : Int
  passing : Int
  pending : Int
deriving DecidableEq, Repr

/-- The state of the `feature_list.json` file as seen by one read:
absent, unreadable-or-malformed (open or `json.load` raises), or parsed. -/
inductive Ledger where
  | missing
  | readError
  | parsed (data : JsonVal)

namespace AgentHarness

/-- The `try`-body of `AgentHarness.get_progress` after `json.load`
succeeded: list input counts elements and truthy `passes` fields; any other
input goes through `data.get("total", 0)` / `data.get("passing", 0)`
(raising `AttributeError` unless it is a dict, and `TypeError` on
`total - passing` unless both values are int-like). -/
def progressCore (data : JsonVal) : Option Progress :=
  match data with
  | .jarr xs => do
      let passing ← countPassing xs
      pure ⟨(xs.length : Int), (passing : Int), (xs.length : Int) - passing⟩
  | .jobj fs => do
      let t ← asIntLike ((objGet fs "total").getD (.jnum 0))
      let p ← asIntLike ((objGet fs "passing").getD (.jnum 0))
      pure ⟨t, p, t - p⟩
  | _ => none

/-- `AgentHarness.get_progress`: missing file and any raised exception both
yield the `{"total": 0, "passing": 0, "pending": 0}` default. -/
def get_progress : Ledger → Progress
  | .missing => ⟨0, 0, 0⟩
  | .readError => ⟨0, 0, 0⟩
  | .parsed d => (progressCore d).getD ⟨0, 0, 0⟩

end AgentHarness

namespace RealAgentHarness

/-- The `try`-body of `RealAgentHarness.get_progress`:
`features = data if isinstance(data, list) else data.get("features", [])`,
then `len(features)` and the truthy-`passes` count.  A non-dict non-list
`data` raises on `.get`; a `features` value that is not a list either
raises on `len`/iteration or is empty, and in every such case the final
function value is the `{0,0,0}` default, which is what `none` yields here. -/
def progressCore (data : JsonVal) : Option Progress :=
  match data with
  | .jarr xs => do
      let passing ← countPassing xs
      pure ⟨(xs.length : Int), (passing : Int), (xs.length : Int) - passing⟩
  | .jobj fs =>
      match (objGet fs "features").getD (.jarr []) with
      | .jarr xs => do
          let passing ← countPassing xs
          pure ⟨(xs.length : Int), (passing : Int), (xs.length : Int) - passing⟩
      | _ => none
  | _ => none

/-- `RealAgentHarness.get_progress`: same `except`-to-default shape as the
orchestrator's reader. -/
def get_progress : Ledger → Progress
  | .missing => ⟨0, 0, 0⟩
  | .readError => ⟨0, 0, 0⟩
  | .parsed d => (progressCore d).getD ⟨0, 0, 0⟩

end RealAgentHarness

/-- The loop's completion test
`progress["pending"] == 0 and progress["total"] > 0`. -/
def allPassing (p : Progress) : Bool :=
  decide (p.pending = 0) && decide (0 < p.total)

/-! ## Events

`AgentEvent` as emitted through `AgentHarness.emit` /
`RealAgentHarness.emit`: both increment the harness's per-run `step`
counter and stamp the event with it.  The `data` dict of each event kind is
modelled by one `Payload` constructor per shape occurring in the source. -/

inductive EventType where
  | status
  | tool_call
  | tool_result
  | message
  | feature
  | commit
  | test
  | error
  | complete
deriving DecidableEq, Repr

inductive Payload where
  /-- `{"status": s, "message": m?, "session": n?, "progress": p?}` -/
  | pstatus (status : String) (message : Option String) (session : Option Nat)
      (progress : Option Progress)
  /-- the `complete` event's data, with the run's counters -/
  | pcomplete (message : String) (featuresCompleted : Nat) (commitsMade : Nat)
      (progress : Progress)
  | ptoolCall (name : String) (input : String)
  | ptoolResult (output : String)
  /-- a tool result carrying the engine's "blocked" marker -/
  | ptoolResultBlocked (output : String)
  | pmessageText (text : String)
  | pfeature (action : String) (featureId : Int)
  | pcommit (message : String)
  | ptest (featureId : Int) (status : String)
  /-- `{"message": str(e), "type": type(e).__name__}` -/
  | perror (message : String) (className : String)
  /-- the SDK stream's `{"output": result}` error emit -/
  | perrorOutput (output : String)
deriving DecidableEq, Repr

structure Event where
  event_type : EventType
  step : Nat
  data : Payload
deriving DecidableEq, Repr

/-- One observable action of a run: an emitted event or an
`asyncio.sleep` (in milliseconds). -/
inductive Act where
  | emit (e : Event)
  | sleepMs (ms : Nat)
deriving DecidableEq, Repr

def eventsOf (t : List Act) : List Event :=
  t.filterMap (fun a => match a with | .emit e => some e | .sleepMs _ => none)

/-- The per-run mutable fields of a harness object that the loops touch:
`self.step`, `self.features_completed`, `self.commits_made`. -/
structure HarnessState where
  step : Nat
  features_completed : Nat
  commits_made : Nat
deriving DecidableEq, Repr

/-- `emit`: increment `self.step` and publish an event stamped with it. -/
def emitAct (st : HarnessState) (t : EventType) (d : Payload) : Act × HarnessState :=
  (Act.emit ⟨t, st.step + 1, d⟩, ⟨st.step + 1, st.features_completed, st.commits_made⟩)

/-- `if self.max_iterations and session > self.max_iterations`, with
Python truthiness: `None` and `0` are both falsy, so neither caps the
run. -/
def maxIterationsExceeded (max_iterations : Option Nat) (session : Nat) : Bool :=
  match max_iterations with
  | none => false
  | some m => decide (0 < m) && decide (m < session)

def pausedMessage (max_iterations : Option Nat) : String :=
  match max_iterations with
  | some m => "Reached max iterations (" ++ toString m ++ ")"
  | none => "Reached max iterations (None)"

/-- How far the loops got when their fuel ran out, or which `break` ended
them. -/
inductive LoopExit where
  | completed
  | paused
  | fuelOut
deriving DecidableEq, Repr

namespace AgentHarness

/-- `AgentHarness._run_coding_session`: reads the ledger once (the
`progress` argument is the oracle's answer to that read), emits the
feature/tool/test/commit events with their `asyncio.sleep(0.3)` pacing,
marks one more feature passing in the ledger file (visible to the oracle
only through later reads), and bumps both counters. -/
def run_coding_session (progress : Progress) (st : HarnessState) :
    List Act × HarnessState :=
  let next_feature : Int := progress.passing + 1
  let (a1, st) := emitAct st .feature (.pfeature "started" next_feature)
  let (a2, st) := emitAct st .tool_call
    (.ptoolCall "read" ("Reading feature #" ++ toString next_feature ++ " requirements..."))
  let (a3, st) := emitAct st .tool_result (.ptoolResult "Requirements loaded")
  let (a4, st) := emitAct st .tool_call
    (.ptoolCall "write" ("Implementing feature #" ++ toString next_feature ++ "..."))
  let (a5, st) := emitAct st .tool_result (.ptoolResult "Implementation complete")
  let (a6, st) := emitAct st .tool_call (.ptoolCall "bash" "npm test")
  let (a7, st) := emitAct st .test (.ptest next_feature "passed")
  let (a8, st) := emitAct st .commit
    (.pcommit ("feat: implement feature #" ++ toString next_feature))
  let st : HarnessState := ⟨st.step, st.features_completed + 1, st.commits_made + 1⟩
  let (a9, st) := emitAct st .feature (.pfeature "completed" next_feature)
  ([a1, Act.sleepMs 300, a2, Act.sleepMs 300, a3, Act.sleepMs 300, a4,
    Act.sleepMs 300, a5, Act.sleepMs 300, a6, a7, a8, a9], st)

/-- `AgentHarness._simulate_initializer`: eight tool events paced by
`asyncio.sleep(0.5)`, the creation of the 200-feature ledger file, then the
`initialized` status event whose `progress` field is a fresh ledger read
(the `progressAfter` oracle answer). -/
def simulate_initializer (progressAfter : Progress) (st : HarnessState) :
    List Act × HarnessState :=
  let (b1, st) := emitAct st .tool_call (.ptoolCall "bash" "mkdir -p src tests")
  let (b2, st) := emitAct st .tool_result (.ptoolResult "Created directories")
  let (b3, st) := emitAct st .tool_call
    (.ptoolCall "write" "Creating feature_list.json with 200 test cases...")
  let (b4, st) := emitAct st .tool_result (.ptoolResult "Created feature_list.json")
  let (b5, st) := emitAct st .tool_call (.ptoolCall "write" "Creating init.sh...")
  let (b6, st) := emitAct st .tool_result (.ptoolResult "Created init.sh")
  let (b7, st) := emitAct st .tool_call
    (.ptoolCall "bash" "git init && git add . && git commit -m \x27Initial commit\x27")
  let (b8, st) := emitAct st .tool_result (.ptoolResult "Initialized git repository")
  let (b9, st) := emitAct st .status
    (.pstatus "initialized" (some "Project initialized with 200 features") none
      (some progressAfter))
  ([Act.sleepMs 500, b1, Act.sleepMs 500, b2, Act.sleepMs 500, b3, Act.sleepMs 500,
    b4, Act.sleepMs 500, b5, Act.sleepMs 500, b6, Act.sleepMs 500, b7,
    Act.sleepMs 500, b8, b9], st)

/-- The result of running `AgentHarness.run_coding_loop` with some fuel:
the action trace, the list of progress snapshots observed by the loop's
completion checks, the final harness state, and how the loop ended. -/
structure LoopResult where
  trace : List Act
  checks : List Progress
  state : HarnessState
  exit : LoopExit
deriving DecidableEq, Repr

/-- `AgentHarness.run_coding_loop`.  The ledger is the oracle
`snap : Nat → Progress` answering the k-th `get_progress` call; `r` is the
index of the next unanswered read; `session` starts at 1.  Each iteration:
max-iterations check, completion check, `running` status, one coding
session (which performs its own ledger read), `asyncio.sleep(3)`. -/
def run_coding_loop (max_iterations : Option Nat) (snap : Nat → Progress) :
    Nat → Nat → Nat → HarnessState → LoopResult
  | 0, _, _, st => ⟨[], [], st, .fuelOut⟩
  | fuel + 1, session, r, st =>
    if maxIterationsExceeded max_iterations session then
      let (a, st1) := emitAct st .status
        (.pstatus "paused" (some (pausedMessage max_iterations)) none none)
      ⟨[a], [], st1, .paused⟩
    else
      let progress := snap r
      if allPassing progress then
        let (a, st1) := emitAct st .complete
          (.pcomplete "All features passing!" st.features_completed st.commits_made
            progress)
        ⟨[a], [progress], st1, .completed⟩
      else
        let (a, st1) := emitAct st .status
          (.pstatus "running" none (some session) (some progress))
        let (sessActs, st2) := run_coding_session (snap (r + 1)) st1
        let rest := run_coding_loop max_iterations snap fuel (session + 1) (r + 2) st2
        ⟨a :: sessActs ++ Act.sleepMs 3000 :: rest.trace, progress :: rest.checks,
          rest.state, rest.exit⟩

/-- `AgentHarness.run` without its exception wrapper: initializer first
when `feature_list.json` does not exist yet, then the coding loop.  The
initializer's `initializing` status precedes `_simulate_initializer`, whose
final status performs ledger read 0. -/
def run (is_first : Bool) (max_iterations : Option Nat) (snap : Nat → Progress)
    (fuel : Nat) : LoopResult :=
  if is_first then
    let (a0, st0) := emitAct ⟨0, 0, 0⟩ .status
      (.pstatus "initializing" (some "Starting initializer agent...") none none)
    let (initActs, st1) := simulate_initializer (snap 0) st0
    let res := run_coding_loop max_iterations snap fuel 1 1 st1
    ⟨a0 :: initActs ++ res.trace, res.checks, res.state, res.exit⟩
  else
    run_coding_loop max_iterations snap fuel 1 0 ⟨0, 0, 0⟩

end AgentHarness

/-- `RunStatus` of `agent_orchestrator.py`. -/
inductive RunStatus where
  | queued
  | running
  | completed
  | failed
  | cancelled
deriving DecidableEq, Repr

/-- A Python exception, by its class name and message. -/
structure Exn where
  className : String
  message : String
deriving DecidableEq, Repr

/-- The `try/except` of `AgentHarness.run` around its body: on normal
return the run status becomes COMPLETED; on an escaping exception the
status becomes FAILED, an `error` event with the exception's message and
class name is emitted (after the events already produced), and the
exception is re-raised. -/
def AgentHarness_run_wrap (traceSoFar : List Act) (st : HarnessState)
    (outcome : Except Exn Unit) : List Act × RunStatus × Except Exn Unit :=
  match outcome with
  | .ok _ => (traceSoFar, RunStatus.completed, .ok ())
  | .error e =>
    let (a, _) := emitAct st .error (.perror e.message e.className)
    (traceSoFar ++ [a], RunStatus.failed, .error e)

/-- `run_worker`'s terminal write to the job table: `"completed"` when
`harness.run()` returned, `"failed"` when it raised. -/
def run_worker_job_status (runOutcome : Except Exn Unit) : String :=
  match runOutcome with
  | .ok _ => "completed"
  | .error _ => "failed"

/-- A worker processing a job whose run raises no exception: the harness
runs, `run()` returns (whatever `LoopExit` ended the loop, pause included),
and the worker writes `"completed"`. -/
def run_worker_normal (is_first : Bool) (max_iterations : Option Nat)
    (snap : Nat → Progress) (fuel : Nat) : AgentHarness.LoopResult × String :=
  (AgentHarness.run is_first max_iterations snap fuel,
   run_worker_job_status (.ok ()))

namespace RealAgentHarness

/-- One block reported by the Claude SDK response stream, in the order the
engine reports them, as translated by `run_agent_session`'s stream loop. -/
inductive EngineMsg where
  | text (t : String)
  | toolUse (name : String) (input : String)
  | toolResultBlocked (output : String)
  | toolResultError (output : String)
  | toolResultOk
deriving DecidableEq, Repr

/-- The event each stream block is translated into. -/
def engineMsgAct : EngineMsg → EventType × Payload
  | .text t => (.message, .pmessageText t)
  | .toolUse n i => (.tool_call, .ptoolCall n i)
  | .toolResultBlocked out => (.tool_result, .ptoolResultBlocked out)
  | .toolResultError out => (.error, .perrorOutput out)
  | .toolResultOk => (.tool_result, .ptoolResult "Done")

/-- Emit the translation of each stream block in order. -/
def emitEngineMsgs (st : HarnessState) : List EngineMsg → List Act × HarnessState
  | [] => ([], st)
  | m :: rest =>
    let (a, st1) := emitAct st (engineMsgAct m).1 (engineMsgAct m).2
    let (acts, st2) := emitEngineMsgs st1 rest
    (a :: acts, st2)

/-- The external execution engine's behaviour for one session: either the
stream of blocks it reports, or the exception it raises. -/
inductive EngineOutcome where
  | continueWith (msgs : List EngineMsg)
  | raised (e : Exn)

/-- `RealAgentHarness.run_agent_session`.  Returns the acts, the updated
harness state, the next unanswered ledger-read index, and the status string
(`"continue"` or `"error"`) the caller branches on.
With the SDK available: the `Sending prompt to Claude...` running status,
then either the translated stream (status `"continue"`) or, when the engine
raises, an `error` event with the exception's message and class (status
`"error"`).
Without the SDK: the `simulating` status, then `_simulate_session`, which
builds a fresh mock `AgentHarness` — its step counter restarts at 0 and its
final counters overwrite the real harness's counters. -/
def run_agent_session (sdkAvailable : Bool) (engine : Nat → EngineOutcome)
    (snap : Nat → Progress) (is_init_prompt : Bool) (session r : Nat)
    (st : HarnessState) : List Act × HarnessState × Nat × String :=
  if sdkAvailable then
    let (a0, st1) := emitAct st .status
      (.pstatus "running" (some "Sending prompt to Claude...") (some session) none)
    match engine session with
    | .continueWith msgs =>
        let (acts, st2) := emitEngineMsgs st1 msgs
        (a0 :: acts, st2, r, "continue")
    | .raised e =>
        let (a1, st2) := emitAct st1 .error (.perror e.message e.className)
        ([a0, a1], st2, r, "error")
  else
    let (a0, st1) := emitAct st .status
      (.pstatus "simulating" (some "Claude SDK not available, using simulation") none
        none)
    let (mockActs, mockSt) :=
      if is_init_prompt then AgentHarness.simulate_initializer (snap r) ⟨0, 0, 0⟩
      else AgentHarness.run_coding_session (snap r) ⟨0, 0, 0⟩
    let st2 : HarnessState := ⟨st1.step, mockSt.features_completed, mockSt.commits_made⟩
    (a0 :: mockActs, st2, r + 1, "continue")

/-- The result of the `while True` loop of `RealAgentHarness.run`:
trace, the progress snapshots observed by the loop's completion checks,
final value of the `session` counter, final harness state, next unanswered
read index, and how the loop ended. -/
structure RealLoopResult where
  trace : List Act
  checks : List Progress
  sessions : Nat
  state : HarnessState
  readIdx : Nat
  exit : LoopExit
deriving DecidableEq, Repr

/-- The `while True` loop of `RealAgentHarness.run`: increment `session`;
max-iterations check; completion check on a fresh ledger read; `running`
status; `run_agent_session`; then either the retry status with its 3s
backoff (`continue`) or the auto-continue status with its 3s delay. -/
def run_loop (sdk : Bool) (max_iterations : Option Nat) (snap : Nat → Progress)
    (engine : Nat → EngineOutcome) (is_first : Bool) :
    Nat → Nat → Nat → HarnessState → RealLoopResult
  | 0, session, r, st => ⟨[], [], session, st, r, .fuelOut⟩
  | fuel + 1, session, r, st =>
    let session := session + 1
    if maxIterationsExceeded max_iterations session then
      let (a, st1) := emitAct st .status
        (.pstatus "paused" (some (pausedMessage max_iterations)) none none)
      ⟨[a], [], session, st1, r, .paused⟩
    else
      let progress := snap r
      if allPassing progress then
        let (a, st1) := emitAct st .complete
          (.pcomplete "All features passing!" st.features_completed st.commits_made
            progress)
        ⟨[a], [progress], session, st1, r + 1, .completed⟩
      else
        let is_init_prompt := is_first && session == 1
        let (a, st1) := emitAct st .status
          (.pstatus "running" none (some session) (some progress))
        let sess := run_agent_session sdk engine snap is_init_prompt session (r + 1) st1
        if sess.2.2.2 == "error" then
          let (aerr, st3) := emitAct sess.2.1 .status
            (.pstatus "error" (some "Session failed, will retry...") none none)
          let rest :=
            run_loop sdk max_iterations snap engine is_first fuel session sess.2.2.1 st3
          ⟨a :: sess.1 ++ aerr :: Act.sleepMs 3000 :: rest.trace,
            progress :: rest.checks, rest.sessions, rest.state, rest.readIdx, rest.exit⟩
        else
          let (acont, st3) := emitAct sess.2.1 .status
            (.pstatus "continuing"
              (some ("Session " ++ toString session ++ " complete, continuing in 3s..."))
              none none)
          let rest :=
            run_loop sdk max_iterations snap engine is_first fuel session sess.2.2.1 st3
          ⟨a :: sess.1 ++ acont :: Act.sleepMs 3000 :: rest.trace,
            progress :: rest.checks, rest.sessions, rest.state, rest.readIdx, rest.exit⟩

/-- `RealAgentHarness.run`: `setup_project` (a `setup` status when seed
spec content was supplied), the loop, and — when the loop `break`s rather
than running out of fuel — the final `complete` status with the total
session count and one more ledger read. -/
def run (sdk : Bool) (max_iterations : Option Nat) (snap : Nat → Progress)
    (engine : Nat → EngineOutcome) (app_spec : Bool) (is_first : Bool) (fuel : Nat) :
    List Act × HarnessState × LoopExit :=
  let (setupActs, st0) :=
    if app_spec then
      let (a, st) := emitAct ⟨0, 0, 0⟩ .status
        (.pstatus "setup" (some "Created app_spec.txt") none none)
      ([a], st)
    else ([], (⟨0, 0, 0⟩ : HarnessState))
  let res := run_loop sdk max_iterations snap engine is_first fuel 0 0 st0
  match res.exit with
  | .fuelOut => (setupActs ++ res.trace, res.state, res.exit)
  | _ =>
    let (afin, stf) := emitAct res.state .status
      (.pstatus "complete" none (some res.sessions) (some (snap res.readIdx)))
    (setupActs ++ res.trace ++ [afin], stf, res.exit)

end RealAgentHarness

/-! ## The job table and the run-history store (Redis) -/

/-- The job dict stored by `JobQueue.enqueue` under `agent:job:{job_id}`
(restricted to the fields the claims are about). -/
structure JobPayload where
  id : String
  run_id : String
  project_id : String
  status : String
deriving DecidableEq, Repr

/-- The Redis hashes `agent:job:{job_id}`, as an association list keyed by
job id. -/
def JobTable := List (String × JobPayload)

/-- `uuid.uuid4()`, modelled as a fresh-name source: the n-th generated
uuid.  Distinct draws are distinct strings. -/
def uuid4 (n : Nat) : String := "uuid-" ++ toString n

/-- `JobQueue.enqueue`: generates its own `job_id`, stamps the job dict
with it and `status="queued"`, stores the job under `agent:job:{job_id}`,
and returns the `job_id`. -/
def JobQueue_enqueue (fresh : Nat) (table : JobTable) (run_id project_id : String) :
    String × JobTable :=
  let job_id := uuid4 fresh
  let job : JobPayload := ⟨job_id, run_id, project_id, "queued"⟩
  (job_id, (job_id, job) :: table)

/-- `JobQueue.get_job`: `hgetall agent:job:{job_id}`; an absent key yields
the not-found outcome. -/
def JobQueue_get_job (table : JobTable) (jid : String) : Option JobPayload :=
  match table with
  | [] => none
  | (k, v) :: rest => if k == jid then some v else JobQueue_get_job rest jid

/-- The body of the `POST /api/agent-runs` route `start_agent_run`: a fresh
`run_id`, an enqueue whose returned `job_id` the route discards, the
pre-run `queued` status event published with `step=0`, and the response
carrying `run_id` and status `queued`. -/
def start_agent_run (fresh : Nat) (table : JobTable) (project_id : String) :
    (String × String × String) × JobTable × Event :=
  let run_id := uuid4 fresh
  let (job_id, table1) := JobQueue_enqueue (fresh + 1) table run_id project_id
  let _ := job_id
  let queuedEvent : Event :=
    ⟨.status, 0, .pstatus "queued" (some "Job queued") none none⟩
  ((run_id, project_id, "queued"), table1, queuedEvent)

/-- The per-run history lists `agent:history:{run_id}`, keyed by run id.
A run id with no entry is indistinguishable from one whose key was dropped
by TTL expiry. -/
def HistoryStore := List (String × List Event)

/-- The `lpush` performed by `EventPublisher.publish`: prepend the event to
the run's list (newest first), creating the key if absent. -/
def lpushHistory (store : HistoryStore) (rid : String) (e : Event) : HistoryStore :=
  match store with
  | [] => [(rid, [e])]
  | (k, l) :: rest =>
      if k == rid then (k, e :: l) :: rest else (k, l) :: lpushHistory rest rid e

/-- `lrange agent:history:{run_id} 0 -1`: the stored list, newest first;
an absent key yields the empty list, never an error. -/
def lrangeHistory (store : HistoryStore) (rid : String) : List Event :=
  match store with
  | [] => []
  | (k, l) :: rest => if k == rid then l else lrangeHistory rest rid

/-- TTL expiry of `agent:history:{run_id}`: Redis drops the key. -/
def expireHistory (store : HistoryStore) (rid : String) : HistoryStore :=
  store.filter (fun kv => !(kv.1 == rid))

/-- Publishing a run's events in emission order (each publish `lpush`es). -/
def publishAll (store : HistoryStore) (rid : String) : List Event → HistoryStore
  | [] => store
  | e :: rest => publishAll (lpushHistory store rid e) rid rest

/-- The `GET /api/agent-runs/{run_id}/events` route `get_run_events`:
`reversed(lrange(...))`, i.e. the retained history oldest first. -/
def get_run_events (store : HistoryStore) (rid : String) : List Event :=
  (lrangeHistory store rid).reverse

/-! ## Observables used by the claims -/

/-- Is this action the emission of an event of kind `complete`? -/
def isCompleteEvent (a : Act) : Bool :=
  match a with
  | .emit ⟨.complete, _, _⟩ => true
  | _ => false

/-- Does a trace contain an event of kind `complete`? -/
def hasCompleteEvent (t : List Act) : Bool :=
  t.any isCompleteEvent

/-- Is this action a `status` emission whose status string is `"paused"`? -/
def isPausedStatus (a : Act) : Bool :=
  match a with
  | .emit e => match e.data with
      | .pstatus s _ _ _ => s == "paused"
      | _ => false
  | .sleepMs _ => false

def hasPausedStatus (t : List Act) : Bool := t.any isPausedStatus

/-- The session index announced by a controller `running` status event
(the event opening a session attempt carries both a session index and a
progress snapshot; the SDK's `Sending prompt` status carries no
snapshot). -/
def attemptOf (a : Act) : Option Nat :=
  match a with
  | .emit ⟨.status, _, .pstatus s _ (some n) (some _)⟩ =>
      if s == "running" then some n else none
  | _ => none

/-- The session indices of the session attempts announced in a trace. -/
def attemptSessions (t : List Act) : List Nat :=
  t.filterMap attemptOf

/-- `l` is the consecutive sequence `k, k+1, k+2, ...` (of `l.length`
elements). -/
def consecutiveFromB : Nat → List Nat → Bool
  | _, [] => true
  | k, n :: rest => n == k && consecutiveFromB (k + 1) rest

/-- `sub` occurs as a substring of `s`. -/
def strContains (s sub : String) : Prop := ∃ a b, s = a ++ (sub ++ b)

/-! ## Helper lemmas -/

lemma hasCompleteEvent_append (s t : List Act) :
    hasCompleteEvent (s ++ t) = (hasCompleteEvent s || hasCompleteEvent t) := by
  simp [hasCompleteEvent, List.any_append]

lemma hasPausedStatus_append (s t : List Act) :
    hasPausedStatus (s ++ t) = (hasPausedStatus s || hasPausedStatus t) := by
  simp [hasPausedStatus, List.any_append]

lemma hasCompleteEvent_session (p : Progress) (st : HarnessState) :
    hasCompleteEvent (AgentHarness.run_coding_session p st).1 = false := rfl

lemma hasPausedStatus_session (p : Progress) (st : HarnessState) :
    hasPausedStatus (AgentHarness.run_coding_session p st).1 = false := rfl

lemma hasPausedStatus_initializer (p : Progress) (st : HarnessState) :
    hasPausedStatus (AgentHarness.simulate_initializer p st).1 = false := rfl

lemma lrange_lpush (store : HistoryStore) (rid : String) (e : Event) :
    lrangeHistory (lpushHistory store rid e) rid = e :: lrangeHistory store rid := by
  induction store with
  | nil => simp [lpushHistory, lrangeHistory]
  | cons kv rest ih =>
    by_cases hk : kv.1 == rid
    · simp [lpushHistory, lrangeHistory, hk]
    · simp [lpushHistory, lrangeHistory, hk, ih]

lemma lrange_publishAll (rid : String) (evts : List Event) :
    ∀ store : HistoryStore,
      lrangeHistory (publishAll store rid evts) rid
        = evts.reverse ++ lrangeHistory store rid := by
  induction evts with
  | nil => intro store; simp [publishAll]
  | cons e rest ih =>
    intro store
    simp [publishAll, ih, lrange_lpush]

lemma lrange_expire (store : HistoryStore) (rid : String) :
    lrangeHistory (expireHistory store rid) rid = [] := by
  induction store with
  | nil => rfl
  | cons kv rest ih =>
    by_cases hk : kv.1 == rid
    · simpa [expireHistory, hk] using ih
    · simpa [expireHistory, lrangeHistory, hk] using ih

lemma hasCompleteEvent_cons (a : Act) (t : List Act) :
    hasCompleteEvent (a :: t) = (isCompleteEvent a || hasCompleteEvent t) := rfl

lemma hasCompleteEvent_initializer (p : Progress) (st : HarnessState) :
    hasCompleteEvent (AgentHarness.simulate_initializer p st).1 = false := rfl

lemma hasCompleteEvent_engineMsgs (msgs : List RealAgentHarness.EngineMsg) :
    ∀ st : HarnessState,
      hasCompleteEvent (RealAgentHarness.emitEngineMsgs st msgs).1 = false := by
  induction msgs with
  | nil => intro st; rfl
  | cons m rest ih =>
    intro st
    cases m <;>
      simp [RealAgentHarness.emitEngineMsgs, RealAgentHarness.engineMsgAct,
        hasCompleteEvent_cons, isCompleteEvent, emitAct, ih]

lemma hasCompleteEvent_run_agent_session (sdk : Bool)
    (engine : Nat → RealAgentHarness.EngineOutcome) (snap : Nat → Progress)
    (iip : Bool) (session r : Nat) (st : HarnessState) :
    hasCompleteEvent
      (RealAgentHarness.run_agent_session sdk engine snap iip session r st).1 = false := by
  cases sdk with
  | false =>
    cases iip <;>
      simp [RealAgentHarness.run_agent_session, hasCompleteEvent_cons, isCompleteEvent,
        emitAct, hasCompleteEvent_session, hasCompleteEvent_initializer]
  | true =>
    cases hengine : engine session with
    | continueWith msgs =>
      simp [RealAgentHarness.run_agent_session, hengine, hasCompleteEvent_cons,
        isCompleteEvent, emitAct, hasCompleteEvent_engineMsgs]
    | raised e =>
      simp [RealAgentHarness.run_agent_session, hengine, hasCompleteEvent_cons,
        isCompleteEvent, emitAct, hasCompleteEvent]

/-- In `AgentHarness.run_coding_loop`, a `complete` event appears in the
trace exactly when one of the observed completion-check snapshots satisfies
`pending == 0 and total > 0`. -/
lemma hasComplete_iff_checks (mi : Option Nat) (snap : Nat → Progress) :
    ∀ (fuel session r : Nat) (st : HarnessState),
      hasCompleteEvent (AgentHarness.run_coding_loop mi snap fuel session r st).trace
        = (AgentHarness.run_coding_loop mi snap fuel session r st).checks.any allPassing := by
  intro fuel
  induction fuel with
  | zero => intro session r st; rfl
  | succ n ih =>
    intro session r st
    by_cases hmax : maxIterationsExceeded mi session = true
    · simp [AgentHarness.run_coding_loop, hmax, hasCompleteEvent, isCompleteEvent, emitAct]
    · by_cases hall : allPassing (snap r) = true
      · simp [AgentHarness.run_coding_loop, hmax, hall, hasCompleteEvent,
          isCompleteEvent, emitAct]
      · simp [AgentHarness.run_coding_loop, hmax, hall, List.any_cons, hasCompleteEvent,
          isCompleteEvent, emitAct, AgentHarness.run_coding_session]
        exact ih (session + 1) (r + 2) _

/-- The same characterisation for the loop of `RealAgentHarness.run`. -/
lemma hasComplete_iff_checks_real (sdk : Bool) (mi : Option Nat) (snap : Nat → Progress)
    (engine : Nat → RealAgentHarness.EngineOutcome) (is_first : Bool) :
    ∀ (fuel session r : Nat) (st : HarnessState),
      hasCompleteEvent
          (RealAgentHarness.run_loop sdk mi snap engine is_first fuel session r st).trace
        = (RealAgentHarness.run_loop sdk mi snap engine is_first fuel session r
            st).checks.any allPassing := by
  intro fuel
  induction fuel with
  | zero => intro session r st; rfl
  | succ n ih =>
    intro session r st
    by_cases hmax : maxIterationsExceeded mi (session + 1) = true
    · simp [RealAgentHarness.run_loop, hmax, hasCompleteEvent_cons, isCompleteEvent,
        emitAct, hasCompleteEvent]
    · by_cases hall : allPassing (snap r) = true
      · simp [RealAgentHarness.run_loop, hmax, hall, hasCompleteEvent_cons,
          isCompleteEvent, emitAct, hasCompleteEvent]
      · simp only [RealAgentHarness.run_loop, hmax, hall, Bool.false_eq_true,
          if_false, ite_false]
        split <;>
        · simp [hasCompleteEvent_cons, isCompleteEvent, emitAct, hasCompleteEvent_append,
            hasCompleteEvent_run_agent_session, List.any_cons, hall, ih]

lemma hasPausedStatus_cons (a : Act) (t : List Act) :
    hasPausedStatus (a :: t) = (isPausedStatus a || hasPausedStatus t) := rfl

lemma hasPausedStatus_nil : hasPausedStatus [] = false := rfl

lemma attemptSessions_nil : attemptSessions [] = [] := rfl

lemma hasPausedStatus_engineMsgs (msgs : List RealAgentHarness.EngineMsg) :
    ∀ st : HarnessState,
      hasPausedStatus (RealAgentHarness.emitEngineMsgs st msgs).1 = false := by
  induction msgs with
  | nil => intro st; rfl
  | cons m rest ih =>
    intro st
    cases m <;>
      simp [RealAgentHarness.emitEngineMsgs, RealAgentHarness.engineMsgAct,
        hasPausedStatus_cons, isPausedStatus, emitAct, ih]

lemma hasPausedStatus_run_agent_session (sdk : Bool)
    (engine : Nat → RealAgentHarness.EngineOutcome) (snap : Nat → Progress)
    (iip : Bool) (session r : Nat) (st : HarnessState) :
    hasPausedStatus
      (RealAgentHarness.run_agent_session sdk engine snap iip session r st).1 = false := by
  cases sdk with
  | false =>
    cases iip <;>
      simp [RealAgentHarness.run_agent_session, hasPausedStatus_cons, isPausedStatus,
        emitAct, hasPausedStatus_session, hasPausedStatus_initializer]
  | true =>
    cases hengine : engine session with
    | continueWith msgs =>
      simp [RealAgentHarness.run_agent_session, hengine, hasPausedStatus_cons,
        isPausedStatus, emitAct, hasPausedStatus_engineMsgs]
    | raised e =>
      simp [RealAgentHarness.run_agent_session, hengine, hasPausedStatus_cons,
        isPausedStatus, emitAct, hasPausedStatus]

lemma noPauseExit_agent_loop (snap : Nat → Progress) :
    ∀ (fuel session r : Nat) (st : HarnessState),
      (AgentHarness.run_coding_loop (some 0) snap fuel session r st).exit ≠ .paused := by
  intro fuel
  induction fuel with
  | zero => intro session r st; simp [AgentHarness.run_coding_loop]
  | succ n ih =>
    intro session r st
    by_cases hall : allPassing (snap r) = true
    · simp [AgentHarness.run_coding_loop, maxIterationsExceeded, hall]
    · simp [AgentHarness.run_coding_loop, maxIterationsExceeded, hall]
      exact ih (session + 1) (r + 2) _

lemma noPauseTrace_agent_loop (snap : Nat → Progress) :
    ∀ (fuel session r : Nat) (st : HarnessState),
      hasPausedStatus
        (AgentHarness.run_coding_loop (some 0) snap fuel session r st).trace = false := by
  intro fuel
  induction fuel with
  | zero => intro session r st; rfl
  | succ n ih =>
    intro session r st
    by_cases hall : allPassing (snap r) = true
    · simp [AgentHarness.run_coding_loop, maxIterationsExceeded, hall, hasPausedStatus,
        isPausedStatus, emitAct]
    · simp [AgentHarness.run_coding_loop, maxIterationsExceeded, hall,
        hasPausedStatus_cons, isPausedStatus, emitAct, hasPausedStatus_append,
        hasPausedStatus_session, ih]

lemma noPauseExit_real_loop (sdk : Bool) (snap : Nat → Progress)
    (engine : Nat → RealAgentHarness.EngineOutcome) (is_first : Bool) :
    ∀ (fuel session r : Nat) (st : HarnessState),
      (RealAgentHarness.run_loop sdk (some 0) snap engine is_first fuel session r
        st).exit ≠ .paused := by
  intro fuel
  induction fuel with
  | zero => intro session r st; simp [RealAgentHarness.run_loop]
  | succ n ih =>
    intro session r st
    by_cases hall : allPassing (snap r) = true
    · simp [RealAgentHarness.run_loop, maxIterationsExceeded, hall]
    · simp only [RealAgentHarness.run_loop, maxIterationsExceeded]
      simp [hall]
      split <;> exact ih _ _ _

lemma noPauseTrace_real_loop (sdk : Bool) (snap : Nat → Progress)
    (engine : Nat → RealAgentHarness.EngineOutcome) (is_first : Bool) :
    ∀ (fuel session r : Nat) (st : HarnessState),
      hasPausedStatus
        (RealAgentHarness.run_loop sdk (some 0) snap engine is_first fuel session r
          st).trace = false := by
  intro fuel
  induction fuel with
  | zero => intro session r st; rfl
  | succ n ih =>
    intro session r st
    by_cases hall : allPassing (snap r) = true
    · simp [RealAgentHarness.run_loop, maxIterationsExceeded, hall, hasPausedStatus,
        isPausedStatus, emitAct]
    · simp only [RealAgentHarness.run_loop, maxIterationsExceeded]
      simp [hall]
      split <;>
      · simp [hasPausedStatus_cons, isPausedStatus, emitAct, hasPausedStatus_append,
          hasPausedStatus_run_agent_session, ih]

lemma attemptSessions_cons (a : Act) (t : List Act) :
    attemptSessions (a :: t)
      = match attemptOf a with
        | some n => n :: attemptSessions t
        | none => attemptSessions t := by
  cases h : attemptOf a <;> simp [attemptSessions, List.filterMap_cons, h]

lemma attemptSessions_append (s t : List Act) :
    attemptSessions (s ++ t) = attemptSessions s ++ attemptSessions t := by
  simp [attemptSessions, List.filterMap_append]

lemma filterMap_attemptOf_session (p : Progress) (st : HarnessState) :
    List.filterMap attemptOf (AgentHarness.run_coding_session p st).1 = [] := rfl

lemma filterMap_attemptOf_initializer (p : Progress) (st : HarnessState) :
    List.filterMap attemptOf (AgentHarness.simulate_initializer p st).1 = [] := rfl

lemma filterMap_attemptOf_engineMsgs (msgs : List RealAgentHarness.EngineMsg) :
    ∀ st : HarnessState,
      List.filterMap attemptOf (RealAgentHarness.emitEngineMsgs st msgs).1 = [] := by
  induction msgs with
  | nil => intro st; rfl
  | cons m rest ih =>
    intro st
    cases m <;>
      simp [RealAgentHarness.emitEngineMsgs, RealAgentHarness.engineMsgAct,
        List.filterMap_cons, attemptOf, emitAct, ih]

lemma filterMap_attemptOf_run_agent_session (sdk : Bool)
    (engine : Nat → RealAgentHarness.EngineOutcome) (snap : Nat → Progress)
    (iip : Bool) (session r : Nat) (st : HarnessState) :
    List.filterMap attemptOf
      (RealAgentHarness.run_agent_session sdk engine snap iip session r st).1 = [] := by
  cases sdk with
  | false =>
    cases iip <;>
      simp [RealAgentHarness.run_agent_session, List.filterMap_cons, attemptOf,
        emitAct, filterMap_attemptOf_session, filterMap_attemptOf_initializer]
  | true =>
    cases hengine : engine session with
    | continueWith msgs =>
      simp [RealAgentHarness.run_agent_session, hengine, List.filterMap_cons,
        attemptOf, emitAct, filterMap_attemptOf_engineMsgs]
    | raised e =>
      simp [RealAgentHarness.run_agent_session, hengine, List.filterMap_cons,
        attemptOf, emitAct]

/-- In the loop of `RealAgentHarness.run`, whatever the engine does
(succeed or raise, in any pattern), the announced session attempts are the
consecutive indices `session+1, session+2, ...`: a failed session is not
re-attempted at its own index, and every attempt advances the counter that
the max-iterations check consumes. -/
lemma attempts_consecutive_real (sdk : Bool) (mi : Option Nat) (snap : Nat → Progress)
    (engine : Nat → RealAgentHarness.EngineOutcome) (is_first : Bool) :
    ∀ (fuel session r : Nat) (st : HarnessState),
      consecutiveFromB (session + 1)
        (attemptSessions
          (RealAgentHarness.run_loop sdk mi snap engine is_first fuel session r
            st).trace) = true := by
  intro fuel
  induction fuel with
  | zero => intro session r st; rfl
  | succ n ih =>
    intro session r st
    by_cases hmax : maxIterationsExceeded mi (session + 1) = true
    · simp [RealAgentHarness.run_loop, hmax, attemptSessions, List.filterMap_cons,
        attemptOf, emitAct, consecutiveFromB]
    · by_cases hall : allPassing (snap r) = true
      · simp [RealAgentHarness.run_loop, hmax, hall, attemptSessions,
          List.filterMap_cons, attemptOf, emitAct, consecutiveFromB]
      · simp only [RealAgentHarness.run_loop, hmax, hall, Bool.false_eq_true, if_false,
          ite_false]
        split <;>
        · simp [attemptSessions, List.filterMap_cons, List.filterMap_append, attemptOf,
            emitAct, filterMap_attemptOf_run_agent_session, consecutiveFromB]
          exact ih _ _ _

/-! ## The claims -/

/-- C2: `start_agent_run` (the external enqueue interface) does return a
response with initial status `queued`, but the identifier it returns is the
freshly generated `run_id`, while `JobQueue.enqueue` stores the job under
its own freshly generated `job_id` (the route discards `enqueue`'s return
value).  Querying the job table with the returned identifier therefore
yields the not-found outcome, while the job does sit in the table under the
other id — contradicting the claim that the returned identifier retrieves
the stored status and payload. -/
theorem C2_returned_id_is_not_the_storage_key :
    (start_agent_run 0 [] "proj-1").1.2.2 = "queued"
    ∧ (start_agent_run 0 [] "proj-1").1.1 = uuid4 0
    ∧ JobQueue_get_job (start_agent_run 0 [] "proj-1").2.1
        ((start_agent_run 0 [] "proj-1").1.1) = none
    ∧ JobQueue_get_job (start_agent_run 0 [] "proj-1").2.1 (uuid4 1)
        = some ⟨uuid4 1, uuid4 0, "proj-1", "queued"⟩
    ∧ (start_agent_run 0 [] "proj-1").2.2.step = 0 := by
  exact ⟨rfl, rfl, by decide, by decide, rfl⟩

/-- C5: when the engine raises for the session at index `session + 1`, the
controller emits the session's `running` announcements, the `error` event,
then a status event whose message (`"Session failed, will retry..."`)
contains `"retry"`, sleeps the fixed 3-second backoff, and continues the
loop with the session counter advanced to `session + 1` — so the next
attempt is at the next index; and (third conjunct) whatever the engine
does, the announced attempt indices of a run are the consecutive sequence
starting just above the entry counter: no index is ever attempted twice,
and every attempt, failed or successful, consumes one iteration toward
`max_iterations`. -/
theorem C5_engine_failure_retries_at_next_index (mi : Option Nat)
    (snap : Nat → Progress) (engine : Nat → RealAgentHarness.EngineOutcome)
    (is_first : Bool) (fuel session r : Nat) (st : HarnessState) (e : Exn)
    (hmax : maxIterationsExceeded mi (session + 1) = false)
    (hprog : allPassing (snap r) = false)
    (herr : engine (session + 1) = .raised e) :
    (RealAgentHarness.run_loop true mi snap engine is_first (fuel + 1) session r st
      = ⟨Act.emit ⟨.status, st.step + 1,
            .pstatus "running" none (some (session + 1)) (some (snap r))⟩
          :: Act.emit ⟨.status, st.step + 1 + 1,
            .pstatus "running" (some "Sending prompt to Claude...") (some (session + 1))
              none⟩
          :: Act.emit ⟨.error, st.step + 1 + 1 + 1, .perror e.message e.className⟩
          :: Act.emit ⟨.status, st.step + 1 + 1 + 1 + 1,
            .pstatus "error" (some "Session failed, will retry...") none none⟩
          :: Act.sleepMs 3000
          :: (RealAgentHarness.run_loop true mi snap engine is_first fuel (session + 1)
              (r + 1)
              ⟨st.step + 1 + 1 + 1 + 1, st.features_completed, st.commits_made⟩).trace,
         snap r
          :: (RealAgentHarness.run_loop true mi snap engine is_first fuel (session + 1)
              (r + 1)
              ⟨st.step + 1 + 1 + 1 + 1, st.features_completed, st.commits_made⟩).checks,
         (RealAgentHarness.run_loop true mi snap engine is_first fuel (session + 1)
              (r + 1)
              ⟨st.step + 1 + 1 + 1 + 1, st.features_completed,
                st.commits_made⟩).sessions,
         (RealAgentHarness.run_loop true mi snap engine is_first fuel (session + 1)
              (r + 1)
              ⟨st.step + 1 + 1 + 1 + 1, st.features_completed, st.commits_made⟩).state,
         (RealAgentHarness.run_loop true mi snap engine is_first fuel (session + 1)
              (r + 1)
              ⟨st.step + 1 + 1 + 1 + 1, st.features_completed,
                st.commits_made⟩).readIdx,
         (RealAgentHarness.run_loop true mi snap engine is_first fuel (session + 1)
              (r + 1)
              ⟨st.step + 1 + 1 + 1 + 1, st.features_completed,
                st.commits_made⟩).exit⟩)
    ∧ strContains "Session failed, will retry..." "retry"
    ∧ (∀ (sdk : Bool) (fuel2 session2 r2 : Nat) (st2 : HarnessState),
        consecutiveFromB (session2 + 1)
          (attemptSessions
            (RealAgentHarness.run_loop sdk mi snap engine is_first fuel2 session2 r2
              st2).trace) = true) := by
  refine ⟨?_, ⟨"Session failed, will ", "...", by decide⟩,
    fun sdk fuel2 session2 r2 st2 =>
      attempts_consecutive_real sdk mi snap engine is_first fuel2 session2 r2 st2⟩
  simp [RealAgentHarness.run_loop, RealAgentHarness.run_agent_session, hmax, hprog,
    herr, emitAct]

/-- C5 witness: an unlimited run whose engine raises exactly on session 2;
the retry status message contains "retry". -/
theorem C5_engine_failure_retries_at_next_index_witness :
    (maxIterationsExceeded none (1 + 1) = false
      ∧ allPassing ((fun (_ : Nat) => (⟨5, 2, 3⟩ : Progress)) 0) = false
      ∧ (fun n => if n == 2
            then RealAgentHarness.EngineOutcome.raised ⟨"RuntimeError", "engine down"⟩
            else RealAgentHarness.EngineOutcome.continueWith []) (1 + 1)
          = .raised ⟨"RuntimeError", "engine down"⟩)
    ∧ strContains "Session failed, will retry..." "retry" :=
  ⟨⟨rfl, rfl, rfl⟩,
   (C5_engine_failure_retries_at_next_index none (fun _ => ⟨5, 2, 3⟩)
      (fun n => if n == 2
        then RealAgentHarness.EngineOutcome.raised ⟨"RuntimeError", "engine down"⟩
        else RealAgentHarness.EngineOutcome.continueWith [])
      false 0 1 0 ⟨0, 0, 0⟩ ⟨"RuntimeError", "engine down"⟩ rfl rfl rfl).2.1⟩

/-- C6: a failed ledger read — missing file, unreadable or malformed
content, or an exception raised inside the parsing body — makes both
progress readers return the `{total: 0, passing: 0, pending: 0}` default
(they are total functions: the `except` clause absorbs every exception),
and this default can never satisfy the completion condition
`pending == 0 and total > 0`. -/
theorem C6_failed_read_defaults_and_never_completes :
    (∀ l : Ledger, (l = .missing ∨ l = .readError) →
      AgentHarness.get_progress l = ⟨0, 0, 0⟩
      ∧ RealAgentHarness.get_progress l = ⟨0, 0, 0⟩)
    ∧ (∀ d : JsonVal, AgentHarness.progressCore d = none →
        AgentHarness.get_progress (.parsed d) = ⟨0, 0, 0⟩)
    ∧ (∀ d : JsonVal, RealAgentHarness.progressCore d = none →
        RealAgentHarness.get_progress (.parsed d) = ⟨0, 0, 0⟩)
    ∧ allPassing ⟨0, 0, 0⟩ = false := by
  refine ⟨?_, ?_, ?_, by decide⟩
  · rintro l (rfl | rfl) <;> exact ⟨rfl, rfl⟩
  · intro d h; simp [AgentHarness.get_progress, h]
  · intro d h; simp [RealAgentHarness.get_progress, h]

/-- C6 witness: the defaults at the concrete failing reads. -/
theorem C6_failed_read_defaults_and_never_completes_witness :
    (Ledger.missing = Ledger.missing ∨ Ledger.missing = Ledger.readError)
    ∧ AgentHarness.progressCore (.jnum 3) = none
    ∧ (AgentHarness.get_progress .missing = ⟨0, 0, 0⟩
        ∧ RealAgentHarness.get_progress .missing = ⟨0, 0, 0⟩)
    ∧ AgentHarness.get_progress (.parsed (.jnum 3)) = ⟨0, 0, 0⟩ :=
  ⟨Or.inl rfl, rfl,
   C6_failed_read_defaults_and_never_completes.1 .missing (Or.inl rfl),
   C6_failed_read_defaults_and_never_completes.2.1 (.jnum 3) rfl⟩

/-- C7: when the run-loop body raises, `AgentHarness.run` sets the run
status to FAILED, emits one final `error` event carrying the exception's
message and class name (after everything already emitted), and re-raises
the same exception; `run_worker` then records the job's terminal status as
`"failed"`. -/
theorem C7_uncaught_exception_fails_run_and_job (t : List Act) (st : HarnessState)
    (e : Exn) :
    AgentHarness_run_wrap t st (.error e)
      = (t ++ [Act.emit ⟨.error, st.step + 1, .perror e.message e.className⟩],
         RunStatus.failed, Except.error e)
    ∧ run_worker_job_status (AgentHarness_run_wrap t st (.error e)).2.2 = "failed"
    ∧ AgentHarness_run_wrap t st (.ok ()) = (t, RunStatus.completed, .ok ()) :=
  ⟨rfl, rfl, rfl⟩

/-- C8: replaying a run's history returns the published events oldest
first; a run id that was never written, and a run id whose history key was
dropped by TTL expiry, both yield the empty sequence rather than an error,
and the read works regardless of any run being active. -/
theorem C8_replay_oldest_first_or_empty :
    (∀ (rid : String) (evts : List Event),
      get_run_events (publishAll [] rid evts) rid = evts)
    ∧ (∀ rid : String, get_run_events [] rid = [])
    ∧ (∀ (store : HistoryStore) (rid : String),
        get_run_events (expireHistory store rid) rid = []) := by
  refine ⟨?_, fun rid => rfl, ?_⟩
  · intro rid evts
    simp [get_run_events, lrange_publishAll, lrangeHistory]
  · intro store rid
    simp [get_run_events, lrange_expire]

/-- C8 witness: a concrete two-event history replays in emission order,
and an absent run id replays empty. -/
theorem C8_replay_oldest_first_or_empty_witness :
    get_run_events
        (publishAll [] "run-1"
          [⟨.status, 1, .pstatus "running" none (some 1) none⟩,
           ⟨.complete, 2, .pcomplete "All features passing!" 0 0 ⟨1, 1, 0⟩⟩]) "run-1"
      = [⟨.status, 1, .pstatus "running" none (some 1) none⟩,
         ⟨.complete, 2, .pcomplete "All features passing!" 0 0 ⟨1, 1, 0⟩⟩]
    ∧ get_run_events [] "run-2" = [] :=
  ⟨C8_replay_oldest_first_or_empty.1 "run-1" _,
   C8_replay_oldest_first_or_empty.2.1 "run-2"⟩

/-- C9: `max_iterations = 0` is falsy in the loops' pause test, so a run
with a zero cap is treated as uncapped: the paused branch is never taken,
no status event with `status="paused"` is ever emitted, and both loops can
only stop through the completion check (or, in the fueled model, by
running out of fuel — the loop itself never pauses). -/
theorem C9_zero_max_iterations_is_uncapped :
    (∀ session : Nat, maxIterationsExceeded (some 0) session = false)
    ∧ (∀ (snap : Nat → Progress) (fuel session r : Nat) (st : HarnessState),
        (AgentHarness.run_coding_loop (some 0) snap fuel session r st).exit ≠ .paused
        ∧ hasPausedStatus
            (AgentHarness.run_coding_loop (some 0) snap fuel session r st).trace
          = false)
    ∧ (∀ (sdk : Bool) (snap : Nat → Progress)
        (engine : Nat → RealAgentHarness.EngineOutcome) (is_first : Bool)
        (fuel session r : Nat) (st : HarnessState),
        (RealAgentHarness.run_loop sdk (some 0) snap engine is_first fuel session r
          st).exit ≠ .paused
        ∧ hasPausedStatus
            (RealAgentHarness.run_loop sdk (some 0) snap engine is_first fuel session r
              st).trace = false) :=
  ⟨fun _ => rfl,
   fun snap fuel session r st =>
     ⟨noPauseExit_agent_loop snap fuel session r st,
      noPauseTrace_agent_loop snap fuel session r st⟩,
   fun sdk snap engine is_first fuel session r st =>
     ⟨noPauseExit_real_loop sdk snap engine is_first fuel session r st,
      noPauseTrace_real_loop sdk snap engine is_first fuel session r st⟩⟩

/-- C10 counterexample: on a ledger that parses to the JSON object
`{"total": 1, "passing": 0}`, `AgentHarness.get_progress` reads the
top-level fields and reports `{1, 0, 1}` while
`RealAgentHarness.get_progress` counts the (absent) `features` array and
reports `{0, 0, 0}` — the two readers disagree. -/
theorem C10_readers_disagree_on_objects :
    AgentHarness.get_progress
        (.parsed (.jobj [("total", .jnum 1), ("passing", .jnum 0)])) = ⟨1, 0, 1⟩
    ∧ RealAgentHarness.get_progress
        (.parsed (.jobj [("total", .jnum 1), ("passing", .jnum 0)])) = ⟨0, 0, 0⟩
    ∧ AgentHarness.get_progress
        (.parsed (.jobj [("total", .jnum 1), ("passing", .jnum 0)]))
      ≠ RealAgentHarness.get_progress
        (.parsed (.jobj [("total", .jnum 1), ("passing", .jnum 0)])) := by
  exact ⟨by decide, by decide, by decide⟩

/-- C10 (amended): the two progress readers agree on every ledger state
except possibly a parsed JSON object — they agree on a missing file, on
unreadable or malformed content, and on every parsed value that is not an
object (JSON lists in particular). -/
theorem C10_readers_agree_off_objects :
    AgentHarness.get_progress .missing = RealAgentHarness.get_progress .missing
    ∧ AgentHarness.get_progress .readError = RealAgentHarness.get_progress .readError
    ∧ ∀ d : JsonVal, (∀ fs, d ≠ .jobj fs) →
        AgentHarness.get_progress (.parsed d) = RealAgentHarness.get_progress (.parsed d) := by
  refine ⟨rfl, rfl, ?_⟩
  intro d h
  cases d with
  | jobj fs => exact absurd rfl (h fs)
  | jnull => rfl
  | jbool b => rfl
  | jnum n => rfl
  | jstr s => rfl
  | jarr xs => rfl

/-- C1 counterexample: in the max_iterations=1, never-completing scenario
the loop does exit by pausing, but the stored job status afterwards is
`"completed"` — `harness.run()` returns normally after the pause and
`run_worker` unconditionally writes `"completed"` — not the `"running"`
the claim asserts it remains at. -/
theorem C1_counterexample_job_status_completed :
    (run_worker_normal false (some 1) (fun _ => ⟨5, 2, 3⟩) 2).1.exit = .paused
    ∧ (run_worker_normal false (some 1) (fun _ => ⟨5, 2, 3⟩) 2).2 = "completed"
    ∧ ¬ (run_worker_normal false (some 1) (fun _ => ⟨5, 2, 3⟩) 2).2 = "running" :=
  ⟨rfl, rfl, by decide⟩

/-- C1 (amended): a non-initializer job with `max_iterations = 1` whose
ledger never satisfies the completion condition emits exactly one
`running` status event (session 1), one session's worth of feature / tool
/ test / commit events, then one `paused` status event, and the loop exits
paused; the run is not failed — but the worker then records the job's
stored status as `"completed"` (pause is non-terminal only for the loop:
`run()` returns normally and `run_worker` marks the job completed). -/
theorem C1_paused_run_trace_and_terminal_status (snap : Nat → Progress)
    (h : ∀ k, allPassing (snap k) = false) :
    (run_worker_normal false (some 1) snap 2).1.trace
      = Act.emit ⟨.status, 1, .pstatus "running" none (some 1) (some (snap 0))⟩
        :: (AgentHarness.run_coding_session (snap 1) ⟨1, 0, 0⟩).1
        ++ [Act.sleepMs 3000,
            Act.emit ⟨.status, 11, .pstatus "paused" (some (pausedMessage (some 1)))
              none none⟩]
    ∧ (run_worker_normal false (some 1) snap 2).1.exit = .paused
    ∧ (run_worker_normal false (some 1) snap 2).2 = "completed" := by
  refine ⟨?_, ?_, rfl⟩ <;>
    simp [run_worker_normal, AgentHarness.run, AgentHarness.run_coding_loop, h 0,
      maxIterationsExceeded, AgentHarness.run_coding_session, emitAct, pausedMessage]

/-- C1 witness: the amended theorem at the constantly-stuck snapshot
`{5, 2, 3}`. -/
theorem C1_paused_run_trace_and_terminal_status_witness :
    (∀ k : Nat, allPassing ((fun (_ : Nat) => (⟨5, 2, 3⟩ : Progress)) k) = false)
    ∧ (run_worker_normal false (some 1) (fun _ => (⟨5, 2, 3⟩ : Progress)) 2).1.exit
        = .paused :=
  ⟨fun _ => rfl,
   (C1_paused_run_trace_and_terminal_status (fun _ => ⟨5, 2, 3⟩) (fun _ => rfl)).2.1⟩

/-- C3: evaluating `RealAgentHarness.run` on its simulation fallback (SDK
unavailable) for one coding session with `max_iterations = 1`, seed spec
content present and a stuck ledger: the per-run step sequence is
`[1, 2, 3, 1, 2, 3, 4, 5, 6, 7, 8, 9, 4, 5, 6]` — the mock harness created
by `_simulate_session` restarts the step counter at 1 for the same run, so
step value 1 occurs twice instead of exactly once and the sequence is not
strictly increasing. -/
theorem C3_sim_fallback_duplicates_steps :
    ((eventsOf (RealAgentHarness.run false (some 1) (fun _ => ⟨5, 2, 3⟩)
        (fun _ => .continueWith []) true false 2).1).map Event.step)
      = [1, 2, 3, 1, 2, 3, 4, 5, 6, 7, 8, 9, 4, 5, 6]
    ∧ (((eventsOf (RealAgentHarness.run false (some 1) (fun _ => ⟨5, 2, 3⟩)
        (fun _ => .continueWith []) true false 2).1).map Event.step).count 1) = 2 :=
  ⟨rfl, rfl⟩

/-- C4: a `complete` event is emitted exactly when one of the loop's
completion-check snapshots satisfies `pending == 0 and total > 0` — both
in `AgentHarness.run_coding_loop` and in the loop of
`RealAgentHarness.run`; and on a first read of
`{total: 5, passing: 5, pending: 0}` the run emits `complete` immediately,
with no session executed and with `featuresCompleted`/`commitsMade` at
their initial zero values. -/
theorem C4_complete_iff_all_passing :
    (∀ (mi : Option Nat) (snap : Nat → Progress) (fuel session r : Nat)
        (st : HarnessState),
      hasCompleteEvent (AgentHarness.run_coding_loop mi snap fuel session r st).trace
        = (AgentHarness.run_coding_loop mi snap fuel session r st).checks.any allPassing)
    ∧ (∀ (sdk : Bool) (mi : Option Nat) (snap : Nat → Progress)
        (engine : Nat → RealAgentHarness.EngineOutcome) (is_first : Bool)
        (fuel session r : Nat) (st : HarnessState),
      hasCompleteEvent
          (RealAgentHarness.run_loop sdk mi snap engine is_first fuel session r st).trace
        = (RealAgentHarness.run_loop sdk mi snap engine is_first fuel session r
            st).checks.any allPassing)
    ∧ (AgentHarness.run false none (fun _ => ⟨5, 5, 0⟩) 1).trace
        = [Act.emit ⟨.complete, 1, .pcomplete "All features passing!" 0 0 ⟨5, 5, 0⟩⟩]
    ∧ (AgentHarness.run false none (fun _ => ⟨5, 5, 0⟩) 1).exit = .completed :=
  ⟨fun mi snap => hasComplete_iff_checks mi snap,
   fun sdk mi snap engine isf => hasComplete_iff_checks_real sdk mi snap engine isf,
   rfl, rfl⟩

/-- C10 witness: the agreement at a concrete non-object ledger. -/
theorem C10_readers_agree_off_objects_witness :
    (∀ fs, JsonVal.jarr [.jobj [("passes", .jbool true)]] ≠ JsonVal.jobj fs)
    ∧ AgentHarness.get_progress (.parsed (.jarr [.jobj [("passes", .jbool true)]]))
        = RealAgentHarness.get_progress (.parsed (.jarr [.jobj [("passes", .jbool true)]])) :=
  ⟨fun _ h => JsonVal.noConfusion h,
   C10_readers_agree_off_objects.2.2 _ (fun _ h => JsonVal.noConfusion h)⟩

end ACD
